import Mathlib

/-!
Verification of the tinychat Agent Execution Bridge (RLM subsystem).

Shallow embedding of:
- `app/services/rlm_service.py` (`stream_rlm_completion`, the `rlm_worker`
  thread, `_resolve_val`, the fallback final-answer heuristic and the
  final-answer cleanup),
- `app/utils/state.py` (`StateManager` counters and `check_rlm_capacity`),
- `app/api/v1/chat.py` (`rlm_generate` counter acquire/release discipline).

Machine strings are modelled as Lean `String`; the Python string methods
used by the source (`strip`, `strip(ch)`, `replace`, `split`, `lower`,
`startswith`, `in`, `isidentifier`) are re-implemented below on `List Char`
so that every definition is executable and kernel-reducible.
`str.isidentifier` is modelled on its ASCII fragment (ASCII letters,
digits, underscore), which is the fragment all claims exercise.
-/

/-! ## Character and string primitives -/

/-- The single-quote character, written via its code point. -/
def squoteChar : Char := Char.ofNat 39

/-- The double-quote character, written via its code point. -/
def dquoteChar : Char := Char.ofNat 34

/-- Drop the maximal leading run of characters satisfying `p`
(the left half of Python `str.strip`). -/
def dropLeading (p : Char → Bool) : List Char → List Char
  | [] => []
  | c :: cs => if p c then dropLeading p cs else c :: cs

/-- Drop the maximal trailing run of characters satisfying `p`
(the right half of Python `str.strip`). -/
def dropTrailing (p : Char → Bool) (l : List Char) : List Char :=
  (dropLeading p l.reverse).reverse

/-- Python `str.strip`-style two-sided strip on character lists. -/
def stripList (p : Char → Bool) (l : List Char) : List Char :=
  dropTrailing p (dropLeading p l)

/-- Python `s.strip()` (whitespace strip, ASCII fragment). -/
def pyStrip (s : String) : String :=
  String.mk (stripList (fun c => c.isWhitespace) s.toList)

/-- Python `s.strip(q)` for a single strip character `q`. -/
def stripCh (q : Char) (s : String) : String :=
  String.mk (stripList (fun c => c == q) s.toList)

/-- `needle` is a prefix of `hay` (character lists). -/
def charsMatch : List Char → List Char → Bool
  | [], _ => true
  | _ :: _, [] => false
  | a :: as, b :: bs => a == b && charsMatch as bs

/-- Python `needle in hay` (substring containment). -/
def containsChars (needle : List Char) : List Char → Bool
  | [] => needle.isEmpty
  | c :: cs => charsMatch needle (c :: cs) || containsChars needle cs

/-- Python `needle in hay` on `String`. -/
def containsSub (hay needle : String) : Bool :=
  containsChars needle.toList hay.toList

/-- Python `s.lower()` (ASCII fragment). -/
def lowerStr (s : String) : String :=
  String.mk (s.toList.map Char.toLower)

/-- One fuel-bounded step list for Python `s.replace(pat, rep)`:
replace non-overlapping occurrences left to right. -/
def replaceChars (pat rep : List Char) : Nat → List Char → List Char
  | 0, l => l
  | _ + 1, [] => []
  | fuel + 1, c :: cs =>
    if !pat.isEmpty && charsMatch pat (c :: cs) then
      rep ++ replaceChars pat rep fuel ((c :: cs).drop pat.length)
    else
      c :: replaceChars pat rep fuel cs

/-- Python `s.replace(pat, rep)` (for the non-empty patterns the source uses). -/
def pyReplace (s pat rep : String) : String :=
  String.mk (replaceChars pat.toList rep.toList s.toList.length s.toList)

/-- Fuel-bounded core of Python `s.split(sep)`. -/
def splitOnChars (sep : List Char) : Nat → List Char → List Char → List (List Char)
  | 0, acc, l => [acc.reverse ++ l]
  | _ + 1, acc, [] => [acc.reverse]
  | fuel + 1, acc, c :: cs =>
    if !sep.isEmpty && charsMatch sep (c :: cs) then
      acc.reverse :: splitOnChars sep fuel [] ((c :: cs).drop sep.length)
    else
      splitOnChars sep fuel (c :: acc) cs

/-- Python `s.split(sep)` (non-empty separator). -/
def pySplit (s sep : String) : List String :=
  (splitOnChars sep.toList s.toList.length [] s.toList).map String.mk

/-- Python `last_line.split(sep)[0]`. -/
def firstSplit (s sep : String) : String := (pySplit s sep).headD s

/-- Python `part.split(sep)[-1]`. -/
def lastSplit (s sep : String) : String := (pySplit s sep).getLastD s

/-- ASCII model of the start characters of a Python identifier. -/
def isIdentStart (c : Char) : Bool := c.isAlpha || c == '_'

/-- ASCII model of the continuation characters of a Python identifier. -/
def isIdentCont (c : Char) : Bool := c.isAlphanum || c == '_'

/-- ASCII model of Python `str.isidentifier`. -/
def pyIsIdentifier (s : String) : Bool :=
  match s.toList with
  | [] => false
  | c :: cs => isIdentStart c && cs.all isIdentCont

/-! ## The sandbox environment and identifier resolution

`rlm_service.py` interrogates the RLM execution environment in three ways:
`environment.locals` (live variable bindings, guarded by `hasattr`),
`environment.execute_code("print(<name>)")` (the sandbox probe, guarded by
`hasattr`), and the optional `get_context_count` / `get_history_count`.
The environment is external to this repository, so it is abstracted as a
record of those capabilities. -/

/-- Abstract sandbox environment capabilities used by `rlm_worker`. -/
structure SandboxEnv where
  /-- `environment.locals` when the attribute exists, as a binding list. -/
  locals : Option (List (String × String))
  /-- whether `environment` has an `execute_code` attribute. -/
  hasExec : Bool
  /-- `environment.execute_code code = (stdout, stderr)`. -/
  execRun : String → String × String
  /-- `environment.get_context_count` when present, per iteration index. -/
  getContextCount : Option (Nat → Nat)
  /-- `environment.get_history_count` when present, per iteration index. -/
  getHistoryCount : Option (Nat → Nat)

/-- `str(environment.locals[v])` lookup: `v in environment.locals`. -/
def lookupLocal (l : List (String × String)) (v : String) : Option String :=
  (l.find? (fun p => p.1 == v)).map (fun p => p.2)

/-- The quote normalization applied by the source before identifier
resolution: `val_str.strip().strip(dquote).strip(squote)`
(rlm_service.py line 154 and line 221). -/
def stripNormalize (s : String) : String :=
  stripCh squoteChar (stripCh dquoteChar (pyStrip s))

/-- Shared identifier-resolution logic of `_resolve_val`
(rlm_service.py lines 153-162) and of the final-answer cleanup
(lines 221-230): after quote-stripping, a bare identifier is resolved
through `environment.locals` or, failing that, through an
`execute_code("print(<name>)")` probe.  Returns the resolved value
together with the list of identifier names passed to the probe. -/
def resolve_core (env : SandboxEnv) (v : String) : String × List String :=
  if pyIsIdentifier v then
    match env.locals with
    | some l =>
      match lookupLocal l v with
      | some x => (x, [])
      | none =>
        if env.hasExec then
          if (env.execRun ("print(" ++ v ++ ")")).2 == "" then
            (pyStrip (env.execRun ("print(" ++ v ++ ")")).1, [v])
          else (v, [v])
        else (v, [])
    | none =>
      if env.hasExec then
        if (env.execRun ("print(" ++ v ++ ")")).2 == "" then
          (pyStrip (env.execRun ("print(" ++ v ++ ")")).1, [v])
        else (v, [v])
      else (v, [])
  else (v, [])

/-- `_resolve_val`: quote-strip, then resolve a bare identifier. -/
def resolve_val (env : SandboxEnv) (valStr : String) : String × List String :=
  resolve_core env (stripNormalize valStr)

/-- The final-answer normalization of rlm_service.py lines 219-230:
strip whitespace, strip double quotes, strip single quotes, then resolve a
bare identifier through the environment. -/
def normalize_final_answer (env : SandboxEnv) (s : String) : String :=
  (resolve_val env s).1

/-! ## Final-answer fallback heuristic (rlm_service.py lines 198-216) -/

/-- `execution_outputs`: concatenated captured stdout of the iteration's
code blocks (`cb.result.stdout + "\n"` for each block with truthy stdout). -/
structure CodeBlockRes where
  code : String
  stdout : String
  stderr : String
deriving DecidableEq

/-- Result of one `_completion_turn` call, with `marker` standing for the
external `find_final_answer` parser's verdict on the response text. -/
structure IterResult where
  response : String
  code_blocks : List CodeBlockRes
  marker : Option String

/-- rlm_service.py lines 150-153: gather execution outputs. -/
def execution_outputs (blocks : List CodeBlockRes) : String :=
  blocks.foldl (fun acc cb => if cb.stdout ≠ "" then acc ++ cb.stdout ++ "\n" else acc) ""

/-- whether the lowercased response text contains "final answer" or
"completed" (rlm_service.py lines 209-211). -/
def hasCompletionPhrase (response : String) : Bool :=
  containsSub (lowerStr response) "final answer" || containsSub (lowerStr response) "completed"

/-- Fallback final-answer selection (rlm_service.py lines 206-216): when the
explicit marker is absent and the response carries a completion phrase, the
stripped execution outputs are used when non-empty, else the raw response. -/
def fallback_final_answer (marker : Option String) (response : String)
    (execOutputs : String) : Option String :=
  match marker with
  | some a => some a
  | none =>
    if hasCompletionPhrase response then
      if pyStrip execOutputs ≠ "" then some (pyStrip execOutputs) else some response
    else none

/-! ## Strip lemmas (for the normalization claims) -/

/-- Whether the first character of `l` fails `p` (vacuously true when empty). -/
def headFails (p : Char → Bool) : List Char → Bool
  | [] => true
  | c :: _ => !p c

theorem dropLeading_idem (p : Char → Bool) (l : List Char) :
    dropLeading p (dropLeading p l) = dropLeading p l := by
  induction l with
  | nil => rfl
  | cons c cs ih =>
    by_cases h : p c = true
    · simp [dropLeading, h, ih]
    · simp [dropLeading, h]

theorem headFails_dropLeading (p : Char → Bool) (l : List Char) :
    headFails p (dropLeading p l) = true := by
  induction l with
  | nil => rfl
  | cons c cs ih =>
    by_cases h : p c = true
    · simp [dropLeading, h, ih]
    · simp [dropLeading, h, headFails]

theorem dropLeading_eq_of_headFails (p : Char → Bool) (l : List Char)
    (h : headFails p l = true) : dropLeading p l = l := by
  cases l with
  | nil => rfl
  | cons c cs =>
    simp only [headFails, Bool.not_eq_true'] at h
    simp [dropLeading, h]

theorem dropLeading_suffix (p : Char → Bool) (l : List Char) :
    dropLeading p l <:+ l := by
  induction l with
  | nil => exact List.suffix_refl _
  | cons c cs ih =>
    by_cases h : p c = true
    · simp only [dropLeading, h, if_pos]
      exact ih.trans (List.suffix_cons c cs)
    · simp [dropLeading, h]

theorem headFails_of_prefix (p : Char → Bool) {t m : List Char}
    (hpre : t <+: m) (h : headFails p m = true) : headFails p t = true := by
  cases t with
  | nil => rfl
  | cons c cs =>
    obtain ⟨u, hu⟩ := hpre
    cases m with
    | nil => simp at hu
    | cons d ds =>
      have : c = d := by
        have := congrArg (fun l => List.headD l c) hu
        simpa using this
      simpa [headFails, this] using h

theorem dropTrailing_idem (p : Char → Bool) (l : List Char) :
    dropTrailing p (dropTrailing p l) = dropTrailing p l := by
  simp [dropTrailing, List.reverse_reverse, dropLeading_idem]

theorem dropTrailing_prefixOf (p : Char → Bool) (l : List Char) :
    dropTrailing p l <+: l := by
  have h := dropLeading_suffix p l.reverse
  rw [dropTrailing]
  exact List.reverse_suffix.1 (by simpa using h)

theorem headFails_dropTrailing (p : Char → Bool) (l : List Char)
    (h : headFails p l = true) : headFails p (dropTrailing p l) = true :=
  headFails_of_prefix p (dropTrailing_prefixOf p l) h

theorem stripList_idem (p : Char → Bool) (l : List Char) :
    stripList p (stripList p l) = stripList p l := by
  have hm : headFails p (dropLeading p l) = true := headFails_dropLeading p l
  have ht : headFails p (dropTrailing p (dropLeading p l)) = true :=
    headFails_dropTrailing p _ hm
  simp only [stripList]
  rw [dropLeading_eq_of_headFails p _ ht, dropTrailing_idem]

theorem all_dropLeading (p q : Char → Bool) (l : List Char)
    (h : l.all q = true) : (dropLeading p l).all q = true := by
  induction l with
  | nil => rfl
  | cons c cs ih =>
    simp only [List.all_cons, Bool.and_eq_true] at h
    by_cases hp : p c = true
    · simp only [dropLeading, hp, if_pos]
      exact ih h.2
    · simpa [dropLeading, hp, List.all_cons] using h

theorem all_dropTrailing (p q : Char → Bool) (l : List Char)
    (h : l.all q = true) : (dropTrailing p l).all q = true := by
  rw [dropTrailing, List.all_reverse]
  exact all_dropLeading p q l.reverse (by rwa [List.all_reverse])

theorem all_stripList (p q : Char → Bool) (l : List Char)
    (h : l.all q = true) : (stripList p l).all q = true :=
  all_dropTrailing p q _ (all_dropLeading p q l h)

theorem dropLeading_eq_of_allFails (p : Char → Bool) (l : List Char)
    (h : l.all (fun c => !p c) = true) : dropLeading p l = l := by
  apply dropLeading_eq_of_headFails
  cases l with
  | nil => rfl
  | cons c cs =>
    simp only [List.all_cons, Bool.and_eq_true] at h
    simpa [headFails] using h.1

theorem dropTrailing_eq_of_allFails (p : Char → Bool) (l : List Char)
    (h : l.all (fun c => !p c) = true) : dropTrailing p l = l := by
  rw [dropTrailing, dropLeading_eq_of_allFails p _ (by rwa [List.all_reverse]),
    List.reverse_reverse]

theorem stripList_eq_of_allFails (p : Char → Bool) (l : List Char)
    (h : l.all (fun c => !p c) = true) : stripList p l = l := by
  rw [stripList, dropLeading_eq_of_allFails p _ h, dropTrailing_eq_of_allFails p _ h]

/-! ## Claims C6 and C7: fallback heuristic and normalization -/

/-- A sandbox environment exposing neither `locals` nor `execute_code`,
so identifier resolution degrades to the identity (both `hasattr` guards
in the source fail). -/
def envBare : SandboxEnv := ⟨none, false, fun _ => ("", ""), none, none⟩

theorem normalize_final_answer_envBare (s : String) :
    normalize_final_answer envBare s = stripNormalize s := by
  simp [normalize_final_answer, resolve_val, resolve_core, envBare]

/-- `s` contains neither a single-quote nor a double-quote character. -/
def quoteFree (s : String) : Bool :=
  s.toList.all (fun c => !(c == dquoteChar) && !(c == squoteChar))

theorem pyStrip_quoteFree (s : String) (h : quoteFree s = true) :
    quoteFree (pyStrip s) = true := by
  unfold quoteFree at h ⊢
  exact all_stripList _ _ _ h

theorem stripCh_eq_of_all (q : Char) (s : String)
    (h : s.toList.all (fun c => !(c == q)) = true) : stripCh q s = s := by
  unfold stripCh
  rw [stripList_eq_of_allFails _ _ h]
  rfl

theorem stripNormalize_eq_pyStrip (s : String) (h : quoteFree s = true) :
    stripNormalize s = pyStrip s := by
  have h1 : quoteFree (pyStrip s) = true := pyStrip_quoteFree s h
  unfold quoteFree at h1
  have hdq : (pyStrip s).toList.all (fun c => !(c == dquoteChar)) = true := by
    apply List.all_eq_true.2
    intro c hc
    have hc2 := List.all_eq_true.1 h1 c hc
    simp only [Bool.and_eq_true] at hc2
    exact hc2.1
  have hsq : (pyStrip s).toList.all (fun c => !(c == squoteChar)) = true := by
    apply List.all_eq_true.2
    intro c hc
    have hc2 := List.all_eq_true.1 h1 c hc
    simp only [Bool.and_eq_true] at hc2
    exact hc2.2
  rw [stripNormalize, stripCh_eq_of_all dquoteChar _ hdq,
    stripCh_eq_of_all squoteChar _ hsq]

theorem pyStrip_idem (s : String) : pyStrip (pyStrip s) = pyStrip s := by
  unfold pyStrip
  exact congrArg String.mk (stripList_idem _ s.toList)

/-- Claim C6 (confirmed): for an iteration whose response carries no
explicit final-answer marker, the fallback heuristic of rlm_service.py
lines 206-216 produces the stripped concatenated stdout of the
iteration's code blocks when that is non-empty, otherwise the raw
response text, and produces nothing (the loop continues) when the
response contains neither "final answer" nor "completed" in lowercase. -/
theorem c6_fallback_final_answer (response : String) (blocks : List CodeBlockRes) :
    (hasCompletionPhrase response = true →
      fallback_final_answer none response (execution_outputs blocks) =
        some (if pyStrip (execution_outputs blocks) = "" then response
              else pyStrip (execution_outputs blocks)))
    ∧ (hasCompletionPhrase response = false →
      fallback_final_answer none response (execution_outputs blocks) = none) := by
  constructor
  · intro h
    unfold fallback_final_answer
    rw [if_pos h]
    by_cases he : pyStrip (execution_outputs blocks) = ""
    · simp [he]
    · simp [he]
  · intro h
    unfold fallback_final_answer
    rw [if_neg (by simp [h])]

/-- Witness for C6: a response announcing a final answer, one code block
with stdout "7\n": the fallback selects the stripped output "7". -/
theorem c6_fallback_final_answer_witness :
    fallback_final_answer none "Final answer below" (execution_outputs [⟨"c", "7", ""⟩]) =
      some "7" := by
  rw [(c6_fallback_final_answer "Final answer below" [⟨"c", "7", ""⟩]).1 (by decide)]
  decide

/-- The quote layers of the C7 counterexample: the six characters
squote, dquote, '4', '2', dquote, squote. -/
def nestedQuoted42 : String :=
  String.mk [squoteChar, dquoteChar, '4', '2', dquoteChar, squoteChar]

/-- Counterexample to claim C7 as stated: normalizing the already-normalized
string obtained from `nestedQuoted42` strips a further quote layer, so the
normalization of rlm_service.py lines 219-230 is not idempotent.  (First
pass: squotes removed, leaving a dquote-wrapped "42"; second pass: dquotes
removed.) -/
theorem c7_counterexample :
    normalize_final_answer envBare (normalize_final_answer envBare nestedQuoted42) ≠
      normalize_final_answer envBare nestedQuoted42 := by decide

/-- Claim C7 as amended: with a sandbox exposing neither live bindings nor
code execution (so identifier resolution is the identity), the final-answer
normalization is idempotent on strings containing no quote characters; in
general a second application can strip further quote layers. -/
theorem c7_normalize_idempotent_quoteFree (s : String) (h : quoteFree s = true) :
    normalize_final_answer envBare (normalize_final_answer envBare s) =
      normalize_final_answer envBare s := by
  rw [normalize_final_answer_envBare, normalize_final_answer_envBare,
    stripNormalize_eq_pyStrip s h,
    stripNormalize_eq_pyStrip (pyStrip s) (pyStrip_quoteFree s h),
    pyStrip_idem]

/-- Witness for the amended C7 at the concrete quote-free string "  abc  ". -/
theorem c7_normalize_idempotent_quoteFree_witness :
    normalize_final_answer envBare (normalize_final_answer envBare "  abc  ") =
      normalize_final_answer envBare "  abc  " :=
  c7_normalize_idempotent_quoteFree "  abc  " (by decide)

/-! ## Claim C1: counter acquire/release discipline of `rlm_generate`

`app/api/v1/chat.py` lines 142-196: the `rlm_generate` async generator
first awaits `increment_generations`; if `check_rlm_capacity` denies, it
yields a capacity error frame, awaits `decrement_generations` and returns;
otherwise it awaits `increment_rlm_generations` and runs the whole stream
body inside `try: ... finally: decrement_generations();
decrement_rlm_generations()`.  The model records the sequence of counter
operations the generator performs on each control path.  For a rejected
request the releasing decrement sits after a `yield`, outside any
`try/finally`, so a generator closed at that yield skips it; for an
admitted request every exit runs the `finally` exactly once. -/

/-- A mutation of one of the two `StateManager` counters. -/
inductive CounterOp
  | incG | decG | incR | decR
deriving DecidableEq

/-- How the admitted stream body ends: normal completion, a worker error
frame, the consumer-side timeout frame, an exception raised while
streaming or logging, or the generator being closed early by the caller
(client disconnect). -/
inductive StreamOutcome
  | normal | workerError | timeoutExit | excDuringStream | closedEarly

/-- Counter operations performed by `rlm_generate` on the control path
selected by the capacity-check result and the stream outcome. -/
def rlm_generate_ops (capacityOK : Bool) (o : StreamOutcome) : List CounterOp :=
  CounterOp.incG ::
    (if capacityOK then
      -- increment_rlm_generations, the try body (no counter ops), then the
      -- finally clause, reached on every outcome including generator close
      CounterOp.incR :: [CounterOp.decG, CounterOp.decR]
    else
      -- yield of the capacity error frame, then the bare decrement;
      -- a generator closed at that yield never reaches the decrement
      match o with
      | .closedEarly => []
      | _ => [CounterOp.decG])

/-- Apply one counter operation to the pair
(`_active_generations`, `_active_rlm_generations`). -/
def applyCounterOp : Int × Int → CounterOp → Int × Int
  | (g, r), .incG => (g + 1, r)
  | (g, r), .decG => (g - 1, r)
  | (g, r), .incR => (g, r + 1)
  | (g, r), .decR => (g, r - 1)

/-- Apply a sequence of counter operations in order. -/
def applyCounterOps (ops : List CounterOp) (s : Int × Int) : Int × Int :=
  ops.foldl applyCounterOp s

/-- Claim C1 (confirmed): for every admitted agent-loop request, whatever
the stream outcome (normal completion, worker error, timeout, exception
while streaming, or early generator close), `rlm_generate` performs exactly
one matching decrement for each increment of `active_generations` and
`active_rlm_generations`, so both counters return to their pre-request
values. -/
theorem c1_admitted_counters_balanced (o : StreamOutcome) (g r : Int) :
    applyCounterOps (rlm_generate_ops true o) (g, r) = (g, r) ∧
    (rlm_generate_ops true o).count CounterOp.incG =
      (rlm_generate_ops true o).count CounterOp.decG ∧
    (rlm_generate_ops true o).count CounterOp.incR =
      (rlm_generate_ops true o).count CounterOp.decR := by
  cases o <;>
    refine ⟨?_, by decide, by decide⟩ <;>
    simp [rlm_generate_ops, applyCounterOps, applyCounterOp]

/-! ## Claim C2: the capacity bound under concurrent admission

`StateManager.check_rlm_capacity` (state.py lines 63-67) reads
`_active_rlm_generations < MAX_CONCURRENT_RLM` under `_rlm_lock`, and on
success `rlm_generate` awaits `increment_rlm_generations` (chat.py lines
146-151).  All of this runs on asyncio's single-threaded event loop, and
the stretch from the check through the increment contains no suspension
point: every critical section in state.py is a synchronous integer
operation, so `_rlm_lock` is never held across a suspension, never has a
waiter, and its uncontended `acquire` fast path returns without yielding
to the loop.  A task switch requires a suspension point, so one request's
check-then-increment is atomic with respect to every other request and is
one step of the model: `tryAdmit` performs the capacity check and, when it
passes, the increment; the matching `release` (the `finally` clause's
`decrement_rlm_generations`, reached only on the admitted path) is a
separate later step. -/

/-- The admission-relevant actions of one request on the event loop. -/
inductive RlmAction
  | tryAdmit | release
deriving DecidableEq

/-- The per-request progress through `rlm_generate`'s admission logic. -/
inductive ReqPhase
  | initial | admitted | rejected | released
deriving DecidableEq

/-- Admission-controller state: the `_active_rlm_generations` counter and
each request's phase. -/
structure AdmState where
  counter : Int
  phases : List (Nat × ReqPhase)
deriving DecidableEq

/-- The recorded phase of request `rid` (requests start in `initial`). -/
def phaseOf (l : List (Nat × ReqPhase)) (rid : Nat) : ReqPhase :=
  ((l.find? (fun p => p.1 == rid)).map (fun p => p.2)).getD ReqPhase.initial

/-- One event-loop step of a request: `tryAdmit` is the atomic
check-then-increment of chat.py lines 146-151 (on failure the request is
rejected with the capacity error frame and never increments); `release` is
the admitted path's decrement.  Steps of different requests may interleave
arbitrarily. -/
def rlm_admission_step (maxConcurrent : Nat) (st : AdmState) :
    Nat × RlmAction → AdmState
  | (rid, RlmAction.tryAdmit) =>
    if phaseOf st.phases rid = ReqPhase.initial then
      if st.counter < (maxConcurrent : Int) then
        ⟨st.counter + 1, (rid, ReqPhase.admitted) :: st.phases⟩
      else
        ⟨st.counter, (rid, ReqPhase.rejected) :: st.phases⟩
    else st
  | (rid, RlmAction.release) =>
    if phaseOf st.phases rid = ReqPhase.admitted then
      ⟨st.counter - 1, (rid, ReqPhase.released) :: st.phases⟩
    else st

/-- Run an interleaved schedule from an idle controller. -/
def run_rlm_admission (maxConcurrent : Nat) (sched : List (Nat × RlmAction)) : AdmState :=
  sched.foldl (rlm_admission_step maxConcurrent) ⟨0, []⟩

theorem rlm_admission_step_le (maxConcurrent : Nat) (st : AdmState)
    (a : Nat × RlmAction) (h : st.counter ≤ (maxConcurrent : Int)) :
    (rlm_admission_step maxConcurrent st a).counter ≤ (maxConcurrent : Int) := by
  obtain ⟨rid, act⟩ := a
  cases act with
  | tryAdmit =>
    simp only [rlm_admission_step]
    split
    · split
      · next hlt =>
        show st.counter + 1 ≤ (maxConcurrent : Int)
        omega
      · exact h
    · exact h
  | release =>
    simp only [rlm_admission_step]
    split
    · show st.counter - 1 ≤ (maxConcurrent : Int)
      omega
    · exact h

theorem run_rlm_admission_le (maxConcurrent : Nat) :
    ∀ sched : List (Nat × RlmAction), ∀ st : AdmState,
      st.counter ≤ (maxConcurrent : Int) →
      (sched.foldl (rlm_admission_step maxConcurrent) st).counter ≤ (maxConcurrent : Int) := by
  intro sched
  induction sched with
  | nil => intro st h; exact h
  | cons a rest ih =>
    intro st h
    exact ih _ (rlm_admission_step_le maxConcurrent st a h)

/-- Claim C2 (confirmed): under every interleaving of concurrent requests'
event-loop steps, `active_rlm_generations` never exceeds
`MAX_CONCURRENT_RLM` at any observation point (every schedule prefix), and
a request whose (atomic) admission check sees the counter at or above the
maximum is marked rejected and leaves the counter unchanged. -/
theorem c2_capacity_bound (maxConcurrent : Nat) (sched : List (Nat × RlmAction)) :
    (∀ n, (run_rlm_admission maxConcurrent (sched.take n)).counter ≤ (maxConcurrent : Int)) ∧
    (∀ st : AdmState, ∀ rid : Nat, ¬ st.counter < (maxConcurrent : Int) →
      (rlm_admission_step maxConcurrent st (rid, RlmAction.tryAdmit)).counter = st.counter ∧
      (phaseOf st.phases rid = ReqPhase.initial →
        phaseOf (rlm_admission_step maxConcurrent st (rid, RlmAction.tryAdmit)).phases rid =
          ReqPhase.rejected)) := by
  constructor
  · intro n
    exact run_rlm_admission_le maxConcurrent (sched.take n) ⟨0, []⟩ (by simp)
  · intro st rid hge
    constructor
    · simp only [rlm_admission_step]
      rw [if_neg hge]
      split
      · rfl
      · rfl
    · intro hinit
      simp only [rlm_admission_step]
      rw [if_pos hinit, if_neg hge]
      simp [phaseOf]

/-- Spec Scenario D as a schedule: with maximum 1, request 0 is admitted,
request 1 arrives while the slot is held, request 0 releases, request 2
arrives after. -/
def schedScenarioD : List (Nat × RlmAction) :=
  [(0, RlmAction.tryAdmit), (1, RlmAction.tryAdmit),
   (0, RlmAction.release), (2, RlmAction.tryAdmit)]

/-- Witness for C2 at Scenario D with maximum 1: the counter stays within
the bound after the concurrent checks, the second request (checking with
the counter full) is rejected without incrementing, and after the release
the third request is admitted. -/
theorem c2_capacity_bound_witness :
    (run_rlm_admission 1 (schedScenarioD.take 2)).counter ≤ (1 : Int) ∧
    (rlm_admission_step 1 ⟨1, [(0, ReqPhase.admitted)]⟩ (1, RlmAction.tryAdmit)).counter = 1 ∧
    phaseOf (rlm_admission_step 1 ⟨1, [(0, ReqPhase.admitted)]⟩
      (1, RlmAction.tryAdmit)).phases 1 = ReqPhase.rejected ∧
    phaseOf (run_rlm_admission 1 schedScenarioD).phases 1 = ReqPhase.rejected ∧
    phaseOf (run_rlm_admission 1 schedScenarioD).phases 2 = ReqPhase.admitted := by
  have h1 := (c2_capacity_bound 1 schedScenarioD).1 2
  have h2 := (c2_capacity_bound 1 schedScenarioD).2 ⟨1, [(0, ReqPhase.admitted)]⟩ 1 (by decide)
  exact ⟨h1, h2.1, h2.2 (by decide), by decide, by decide⟩

/-! ## Claim C10: empty conversation history

rlm_service.py lines 72-84: `user_prompt = messages[-1]["content"] if
messages else ""`, then the query is wrapped with the document context when
one is provided.  The frames yielded before the worker thread starts are
the startup indicator only (the sole pre-worker error frame is the
`HAS_RLM` guard). -/

/-- A wire frame of the SSE stream (the payload of one `data:` line). -/
inductive Frame
  | content (s : String)
  | rlmStatus (s : String)
  | error (s : String)
deriving DecidableEq

/-- Whether a frame is an error frame. -/
def isErrorFrame : Frame → Bool
  | Frame.error _ => true
  | _ => false

/-- One entry of the conversation history (its `content` field). -/
structure ChatMessage where
  content : String

/-- `messages[-1]["content"] if messages else ""`. -/
def user_prompt_of (messages : List ChatMessage) : String :=
  match messages.getLast? with
  | some m => m.content
  | none => ""

/-- The query string built from the user prompt and the optional document
context (rlm_service.py lines 74-84). -/
def build_rlm_query (userPrompt : String) : Option String → String
  | some d =>
    "Consider the context below, and answer the prompt:\n\n<CONTEXT>\n" ++ d ++
      "\n</CONTEXT>\n\nPROMPT:\n" ++ userPrompt
  | none => userPrompt

/-- The pre-worker phase of `stream_rlm_completion`: the frames yielded
before the worker thread is started, and the query handed to the worker
(none when the RLM module is missing and the stream ends at once). -/
def stream_rlm_prelude (hasRLM showThinking : Bool) (messages : List ChatMessage)
    (docCtx : Option String) : List Frame × Option String :=
  if hasRLM = false then ([Frame.error "RLM module not installed"], none)
  else
    ((if showThinking then [Frame.content "> [RLM Startup...]\n\n"]
      else [Frame.content "🧠 *RLM is thinking...*\n\n"]),
     some (build_rlm_query (user_prompt_of messages) docCtx))

/-- Claim C10 (confirmed): with an empty conversation history the
pre-worker phase of `stream_rlm_completion` uses the empty string as the
user prompt (no indexing failure), hands the worker the normally built
query, and yields no error frame before the backend is invoked. -/
theorem c10_empty_history (showThinking : Bool) (docCtx : Option String) :
    user_prompt_of [] = "" ∧
    (stream_rlm_prelude true showThinking [] docCtx).2 =
      some (build_rlm_query "" docCtx) ∧
    (stream_rlm_prelude true showThinking [] docCtx).1.all
      (fun f => !isErrorFrame f) = true := by
  refine ⟨rfl, ?_, ?_⟩ <;> cases showThinking <;>
    simp [stream_rlm_prelude, user_prompt_of, isErrorFrame]

/-! ## The event bridge and the stream multiplexer

rlm_service.py lines 245-280: the consumer loop
`while not thread_done.is_set() or not message_queue.empty()` polls the
thread-safe FIFO queue with `get(timeout=0.1)`; each received event is
rendered into a wire frame (lines 250-268); on `queue.Empty` the consumer
checks elapsed time against `RLM_TIMEOUT`, and on expiry sets the
cancellation flag (guarded, so at most once), sleeps a 0.5 s grace period
when the worker has not signalled done, then yields the timeout error
frame and breaks (lines 269-280).

Time is modelled in milliseconds.  Worker-side activity (queue puts,
`thread_done.set()`, the passage of time) is an external `WorldStep`
applied before each consumer loop pass; the queue is a FIFO list, mirroring
`queue.Queue`. -/

/-- The `type` tag of a queued worker message. -/
inductive EventType
  | status | brief_status | update | final | error
deriving DecidableEq

/-- One message on the worker-to-consumer queue. -/
structure Event where
  type : EventType
  content : String
deriving DecidableEq

/-- Whether an event is an error event. -/
def isErrorEvent : Event → Bool
  | ⟨EventType.error, _⟩ => true
  | _ => false

/-- Whether an event is a final event. -/
def isFinalEvent : Event → Bool
  | ⟨EventType.final, _⟩ => true
  | _ => false

/-- Whether an event is an iteration-start announcement
(`status` in verbose mode, `brief_status` otherwise). -/
def isStatusEvent : Event → Bool
  | ⟨EventType.status, _⟩ => true
  | ⟨EventType.brief_status, _⟩ => true
  | _ => false

/-- The visible final-answer separator of verbose mode. -/
def finalAnswerHeader : String := "\n\n---\n### ✅ Final Answer\n\n"

/-- Rendering of one received event (rlm_service.py lines 250-268): the
wire frames yielded and the text appended to `assistant_full_content`. -/
def processEvent (showThinking : Bool) (e : Event) : List Frame × String :=
  match e.type with
  | EventType.status =>
    if showThinking then ([Frame.content e.content], e.content) else ([], "")
  | EventType.update =>
    if showThinking then ([Frame.content e.content], e.content) else ([], "")
  | EventType.brief_status => ([Frame.rlmStatus e.content], "")
  | EventType.final =>
    if showThinking then
      ([Frame.content (finalAnswerHeader ++ e.content)], finalAnswerHeader ++ e.content)
    else ([Frame.content e.content], e.content)
  | EventType.error => ([Frame.error e.content], "")

/-- Consumer-side state of one streaming request. -/
structure ConsumerState where
  /-- contents of `message_queue`, oldest first. -/
  pending : List Event
  /-- `thread_done` flag. -/
  done : Bool
  /-- `time.time() - start_time`, in ms. -/
  elapsed : Nat
  /-- `cancellation_requested` flag. -/
  cancelRequested : Bool
  /-- frames yielded so far. -/
  frames : List Frame
  /-- `assistant_full_content`. -/
  buffer : String
  /-- whether the stream has closed (loop exited or broke). -/
  closed : Bool
  /-- events received from the queue so far, in order. -/
  consumed : List Event
deriving DecidableEq

/-- The state at stream start. -/
def initConsumer : ConsumerState := ⟨[], false, 0, false, [], "", false, []⟩

/-- External activity between two consumer loop passes: events the worker
pushed, elapsed wall-clock time, and whether the worker set `thread_done`. -/
structure WorldStep where
  newEvents : List Event
  dt : Nat
  setDone : Bool
deriving DecidableEq

/-- Apply the worker-side activity to the consumer-visible state. -/
def applyWorld (w : WorldStep) (st : ConsumerState) : ConsumerState :=
  { st with pending := st.pending ++ w.newEvents,
            elapsed := st.elapsed + w.dt,
            done := st.done || w.setDone }

/-- The 0.5 s grace sleep before the consumer-side timeout frame, in ms. -/
def gracePeriod : Nat := 500

/-- The consumer-side timeout error payload. -/
def timeoutErrMsg (timeoutMs : Nat) : String :=
  "RLM execution timeout (" ++ toString timeoutMs ++ "ms)"

/-- One pass of the consumer loop (rlm_service.py lines 245-280): exit when
`thread_done` is set and the queue is empty; otherwise receive and render
one event; on an empty queue, close with the timeout error frame once
elapsed time exceeds the timeout (setting the cancellation flag and
sleeping the grace period when the worker is not done), else keep polling. -/
def consumerStep (showThinking : Bool) (timeoutMs : Nat) (st : ConsumerState) :
    ConsumerState :=
  if st.closed then st
  else if st.done && st.pending.isEmpty then { st with closed := true }
  else
    match st.pending with
    | e :: rest =>
      let pr := processEvent showThinking e
      { st with pending := rest, frames := st.frames ++ pr.1,
                buffer := st.buffer ++ pr.2, consumed := st.consumed ++ [e] }
    | [] =>
      if timeoutMs < st.elapsed then
        { st with cancelRequested := true,
                  elapsed := st.elapsed + (if st.done then 0 else gracePeriod),
                  frames := st.frames ++ [Frame.error (timeoutErrMsg timeoutMs)],
                  closed := true }
      else st

/-- Run the consumer against a sequence of world steps. -/
def runConsumer (showThinking : Bool) (timeoutMs : Nat) :
    List WorldStep → ConsumerState → ConsumerState
  | [], st => st
  | w :: ws, st =>
    runConsumer showThinking timeoutMs ws
      (consumerStep showThinking timeoutMs (applyWorld w st))

/-- All events the worker pushes over a world-step sequence, in order. -/
def allEvents : List WorldStep → List Event
  | [] => []
  | w :: ws => w.newEvents ++ allEvents ws

/-- Total wall-clock time of a world-step sequence. -/
def sumDt : List WorldStep → Nat
  | [] => 0
  | w :: ws => w.dt + sumDt ws

/-- After the step that sets `thread_done`, the worker pushes nothing:
`rlm_worker` performs all its queue puts before the `finally` clause sets
the flag. -/
def afterDoneClean : List WorldStep → Bool
  | [] => true
  | w :: ws =>
    if w.setDone then ws.all (fun v => v.newEvents.isEmpty) else afterDoneClean ws

theorem consumerStep_noTimeout (b : Bool) (tmo : Nat) (st : ConsumerState)
    (h : ¬ tmo < st.elapsed) :
    (consumerStep b tmo st).done = st.done ∧
    (consumerStep b tmo st).elapsed = st.elapsed ∧
    (consumerStep b tmo st).consumed ++ (consumerStep b tmo st).pending =
      st.consumed ++ st.pending ∧
    ((consumerStep b tmo st).closed = true →
      st.closed = true ∨ ((consumerStep b tmo st).pending = [] ∧ st.done = true)) := by
  unfold consumerStep
  by_cases h1 : st.closed = true
  · simp [h1]
  · simp only [h1, if_false, Bool.false_eq_true]
    by_cases h2 : (st.done && st.pending.isEmpty) = true
    · simp only [h2, if_true]
      have h2' := h2
      simp only [Bool.and_eq_true, List.isEmpty_iff] at h2'
      simp [h2'.1, h2'.2]
    · simp only [h2, if_false, Bool.false_eq_true]
      cases hp : st.pending with
      | nil =>
        simp only [hp]
        rw [if_neg h]
        simp [hp]
        exact fun hc => absurd hc h1
      | cons e rest =>
        simp only [hp, h1]
        simp [List.append_assoc]

theorem runConsumer_inv (b : Bool) (tmo : Nat) (ws : List WorldStep) :
    ∀ st : ConsumerState,
    st.elapsed + sumDt ws ≤ tmo →
    (if st.done = true then ws.all (fun v => v.newEvents.isEmpty) = true
     else afterDoneClean ws = true) →
    (st.closed = true → st.done = true ∧ st.pending = []) →
    ((runConsumer b tmo ws st).closed = true →
      (runConsumer b tmo ws st).done = true ∧ (runConsumer b tmo ws st).pending = []) ∧
    (runConsumer b tmo ws st).consumed ++ (runConsumer b tmo ws st).pending =
      st.consumed ++ st.pending ++ allEvents ws := by
  induction ws with
  | nil =>
    intro st _ _ hclosed
    simpa [runConsumer, allEvents] using hclosed
  | cons w ws ih =>
    intro st helapsed hdone hclosed
    have hnt : ¬ tmo < (applyWorld w st).elapsed := by
      simp only [applyWorld, sumDt] at helapsed ⊢
      omega
    obtain ⟨hd, he, hcp, hcl⟩ := consumerStep_noTimeout b tmo (applyWorld w st) hnt
    set st2 := consumerStep b tmo (applyWorld w st) with hst2
    have hrun : runConsumer b tmo (w :: ws) st = runConsumer b tmo ws st2 := rfl
    -- world events preserved through the step
    have hbook : st2.consumed ++ st2.pending = st.consumed ++ st.pending ++ w.newEvents := by
      rw [hcp]
      simp [applyWorld, List.append_assoc]
    have hdone2 :
        (if st2.done = true then ws.all (fun v => v.newEvents.isEmpty) = true
         else afterDoneClean ws = true) := by
      rw [hd]
      simp only [applyWorld]
      by_cases hsd : st.done = true
      · simp only [hsd, Bool.true_or, if_true]
        rw [if_pos hsd] at hdone
        simp only [List.all_cons, Bool.and_eq_true] at hdone
        exact hdone.2
      · simp only [Bool.not_eq_true] at hsd
        rw [if_neg (by simp [hsd])] at hdone
        simp only [hsd, Bool.false_or]
        by_cases hws : w.setDone = true
        · simp only [hws, if_true]
          unfold afterDoneClean at hdone
          rwa [if_pos hws] at hdone
        · simp only [Bool.not_eq_true] at hws
          simp only [hws, Bool.false_eq_true, if_false]
          unfold afterDoneClean at hdone
          rwa [if_neg (by simp [hws])] at hdone
    have hclosed2 : st2.closed = true → st2.done = true ∧ st2.pending = [] := by
      intro hc
      rcases hcl hc with hold | hnew
      · -- the stream was already closed before this pass
        have hstc : st.closed = true := by
          simpa [applyWorld] using hold
        obtain ⟨hsd, hsp⟩ := hclosed hstc
        have hwempty : w.newEvents = [] := by
          rw [if_pos hsd] at hdone
          simp only [List.all_cons, Bool.and_eq_true] at hdone
          simpa [List.isEmpty_iff] using hdone.1
        constructor
        · rw [hd]; simp [applyWorld, hsd]
        · have : st2.consumed ++ st2.pending = st.consumed := by
            rw [hbook, hsp, hwempty]
            simp
          -- closed state never consumes, so pending must be empty
          have hstep : st2 = applyWorld w st := by
            rw [hst2]
            unfold consumerStep
            rw [if_pos hold]
          rw [hstep]
          simp [applyWorld, hsp, hwempty]
      · exact ⟨by rw [hd]; simpa [applyWorld] using hnew.2, hnew.1⟩
    have helapsed2 : st2.elapsed + sumDt ws ≤ tmo := by
      rw [he]
      simp only [applyWorld, sumDt] at helapsed ⊢
      omega
    obtain ⟨ih1, ih2⟩ := ih st2 helapsed2 hdone2 hclosed2
    refine ⟨by rwa [hrun], ?_⟩
    rw [hrun, ih2, hbook]
    simp [allEvents, List.append_assoc]

/-- Claim C4 (confirmed): when the consumer, polling an empty queue while
the worker has not signalled done, observes elapsed time beyond the
timeout, one pass sets the cancellation flag, waits the bounded grace
period, then unconditionally yields the timeout error frame and closes the
stream even though the worker has not exited. -/
theorem c4_consumer_timeout (b : Bool) (tmo : Nat) (st : ConsumerState)
    (h1 : st.closed = false) (h2 : st.pending = []) (h3 : st.done = false)
    (h4 : tmo < st.elapsed) :
    consumerStep b tmo st =
      { st with cancelRequested := true,
                elapsed := st.elapsed + gracePeriod,
                frames := st.frames ++ [Frame.error (timeoutErrMsg tmo)],
                closed := true } := by
  unfold consumerStep
  rw [if_neg (by simp [h1]), if_neg (by simp [h3])]
  simp only [h2]
  rw [if_pos h4]
  simp [h3]

/-- Witness for C4: with a 60 s timeout, 60.001 s elapsed, an empty queue
and a still-running worker, the step closes the stream with the timeout
error frame. -/
theorem c4_consumer_timeout_witness :
    consumerStep true 60000 ⟨[], false, 60001, false, [], "", false, []⟩ =
      ⟨[], false, 60001 + gracePeriod, true,
        [Frame.error (timeoutErrMsg 60000)], "", true, []⟩ := by
  have h := c4_consumer_timeout true 60000 ⟨[], false, 60001, false, [], "", false, []⟩
    rfl rfl rfl (by decide)
  simpa using h

/-- An event the worker pushes right before signalling done. -/
def lateEvent : Event := ⟨EventType.update, "late result"⟩

/-- The world trace defeating claim C5 as stated: time jumps past the
timeout while the worker is still running, then the worker pushes a final
trailing event and signals done. -/
def c5RaceWorld : List WorldStep :=
  [⟨[], 60001, false⟩, ⟨[lateEvent], 0, true⟩]

/-- Counterexample to claim C5 as stated: on the consumer-side timeout
path the stream closes while the producer has not signalled completion
(after the first world step the stream is closed with `done` still false),
and an event pushed before the done signal is never delivered (`consumed`
stays empty although the worker, respecting put-before-done order, pushed
`lateEvent`). -/
theorem c5_counterexample :
    (runConsumer true 60000 [⟨[], 60001, false⟩] initConsumer).closed = true ∧
    (runConsumer true 60000 [⟨[], 60001, false⟩] initConsumer).done = false ∧
    (runConsumer true 60000 c5RaceWorld initConsumer).closed = true ∧
    (runConsumer true 60000 c5RaceWorld initConsumer).consumed = [] ∧
    allEvents c5RaceWorld = [lateEvent] ∧
    afterDoneClean c5RaceWorld = true := by decide

/-- Claim C5 as amended: in runs where the consumer-side timeout never
fires (total elapsed time stays within the timeout), the stream closes only
when the producer has signalled completion and the queue is empty, and the
events received by the consumer are exactly the events the worker pushed
before signalling done, in FIFO emission order; on the timeout path the
stream may instead close early, losing trailing events. -/
theorem c5_amended_drain (b : Bool) (tmo : Nat) (ws : List WorldStep)
    (h1 : sumDt ws ≤ tmo)
    (h2 : afterDoneClean ws = true)
    (h3 : (runConsumer b tmo ws initConsumer).closed = true) :
    (runConsumer b tmo ws initConsumer).done = true ∧
    (runConsumer b tmo ws initConsumer).pending = [] ∧
    (runConsumer b tmo ws initConsumer).consumed = allEvents ws := by
  obtain ⟨ha, hb⟩ := runConsumer_inv b tmo ws initConsumer
    (by simpa [initConsumer] using h1)
    (by simp only [initConsumer]; simpa using h2)
    (by simp [initConsumer])
  obtain ⟨hd, hp⟩ := ha h3
  refine ⟨hd, hp, ?_⟩
  rw [hp] at hb
  simpa [initConsumer] using hb

/-- A worker trace for the C5 witness: two events, then the done signal. -/
def c5WitnessWorld : List WorldStep :=
  [⟨[⟨EventType.status, "s1"⟩, ⟨EventType.final, "42"⟩], 0, false⟩,
   ⟨[], 0, true⟩, ⟨[], 0, false⟩]

/-- Witness for the amended C5: the two pushed events are drained in order
and the stream closes only after the done signal. -/
theorem c5_amended_drain_witness :
    (runConsumer true 60000 c5WitnessWorld initConsumer).done = true ∧
    (runConsumer true 60000 c5WitnessWorld initConsumer).pending = [] ∧
    (runConsumer true 60000 c5WitnessWorld initConsumer).consumed =
      allEvents c5WitnessWorld :=
  c5_amended_drain true 60000 c5WitnessWorld (by decide) (by decide) (by decide)

/-- Counterexample to claim C8 as stated: with verbose mode off, an
`update` event received by the multiplexer is not forwarded at all (no
content frame), whereas the claim says every status/update event is
forwarded and only the accumulation is gated on verbose mode. -/
theorem c8_counterexample :
    processEvent false ⟨EventType.update, "x"⟩ = ([], "") ∧
    processEvent true ⟨EventType.update, "x"⟩ = ([Frame.content "x"], "x") := by
  decide

/-- Claim C8 as amended: a `status` or `update` event is forwarded as a
content frame and accumulated into the full-response buffer if and only if
verbose (show-thinking) mode is on; with verbose mode off it is dropped
entirely (neither forwarded nor accumulated). -/
theorem c8_amended_status_update (b : Bool) (e : Event)
    (h : e.type = EventType.status ∨ e.type = EventType.update) :
    processEvent b e =
      if b then ([Frame.content e.content], e.content) else ([], "") := by
  unfold processEvent
  rcases h with h | h <;> rw [h]

/-- Witness for the amended C8 at a concrete verbose-mode status event. -/
theorem c8_amended_status_update_witness :
    processEvent true ⟨EventType.status, "hello"⟩ = ([Frame.content "hello"], "hello") := by
  have h := c8_amended_status_update true ⟨EventType.status, "hello"⟩ (Or.inl rfl)
  simpa using h

/-! ## The iteration driver (`rlm_worker`, rlm_service.py lines 91-241)

The worker runs `max_iterations` passes.  Each pass checks cancellation and
elapsed time, pushes a status (or brief-status) event, obtains an
`Iteration` from the external backend (`_completion_turn`, abstracted as
`completionTurn`, with `find_final_answer`'s verdict carried in `marker`
and an exception modelled as `Except.error`), renders the human-readable
update (including the FINAL/FINAL_VAR substitution and the smart output
capture, both of which may probe the sandbox), applies the fallback
final-answer heuristic, and either emits the cleaned final answer or
extends the history and continues.  Time is in ms, as for the consumer.
The model returns the emitted events together with every identifier name
handed to the `execute_code("print(<name>)")` probe. -/

/-- Scan for the first `)` on the same line: the lazy group of
`FINAL(?:_VAR)?\((.*?)\)` (a `.` does not cross a newline). -/
def takeUntilClose : List Char → Option (List Char × List Char)
  | [] => none
  | c :: cs =>
    if c == ')' then some ([], cs)
    else if c == '\n' then none
    else
      match takeUntilClose cs with
      | some (inside, rest) => some (c :: inside, rest)
      | none => none

/-- The literal head of a `FINAL_VAR(...)` occurrence. -/
def finalVarPat : List Char := "FINAL_VAR(".toList

/-- The literal head of a `FINAL(...)` occurrence. -/
def finalPat : List Char := "FINAL(".toList

/-- Fuel-bounded model of
`re.sub(r'FINAL(?:_VAR)?\((.*?)\)', lambda m: f"**{...}**", text)`
with `_resolve_val` applied to each captured group (rlm_service.py
lines 164-168): returns the rewritten text and the probed names. -/
def scanFinalAux (env : SandboxEnv) : Nat → List Char → List Char × List String
  | 0, l => (l, [])
  | _ + 1, [] => ([], [])
  | fuel + 1, c :: cs =>
    if charsMatch finalVarPat (c :: cs) then
      match takeUntilClose ((c :: cs).drop finalVarPat.length) with
      | some (inside, rest) =>
        let rv := resolve_val env (String.mk inside)
        let sc := scanFinalAux env fuel rest
        (("**" ++ rv.1 ++ "**").toList ++ sc.1, rv.2 ++ sc.2)
      | none =>
        let sc := scanFinalAux env fuel cs
        (c :: sc.1, sc.2)
    else if charsMatch finalPat (c :: cs) then
      match takeUntilClose ((c :: cs).drop finalPat.length) with
      | some (inside, rest) =>
        let rv := resolve_val env (String.mk inside)
        let sc := scanFinalAux env fuel rest
        (("**" ++ rv.1 ++ "**").toList ++ sc.1, rv.2 ++ sc.2)
      | none =>
        let sc := scanFinalAux env fuel cs
        (c :: sc.1, sc.2)
    else
      let sc := scanFinalAux env fuel cs
      (c :: sc.1, sc.2)

/-- The FINAL/FINAL_VAR substitution over a whole string. -/
def applyFinalSub (env : SandboxEnv) (s : String) : String × List String :=
  let r := scanFinalAux env s.toList.length s.toList
  (String.mk r.1, r.2)

/-- The statement-keyword guards of the smart output capture. -/
def assignKeywords : List String := ["if ", "for ", "while ", "def ", "class "]

/-- Python `s.startswith(pre)`. -/
def pyStartsWith (s pre : String) : Bool := charsMatch pre.toList s.toList

/-- The synthetic capture text: `[Variable name = val]` for an assignment
target, `[Value = val]` for a bare trailing identifier. -/
def varCaptureText (varName val : String) (isAssign : Bool) : String :=
  if isAssign then "[Variable " ++ varName ++ " = " ++ val ++ "]"
  else "[Value = " ++ val ++ "]"

/-- Resolve one candidate name of the smart capture: only identifiers are
resolved, and only a changed value produces synthetic output. -/
def smartCaptureName (env : SandboxEnv) (varName : String) (isAssign : Bool) :
    String × List String :=
  if pyIsIdentifier varName then
    if (resolve_val env varName).1 ≠ varName then
      (varCaptureText varName (resolve_val env varName).1 isAssign,
        (resolve_val env varName).2)
    else ("", (resolve_val env varName).2)
  else ("", [])

/-- `part = last_line.split('=')[0].strip()`;
`var_name = part.split(':')[-1].strip() if ':' in part else part`. -/
def assignTarget (lastLine : String) : String :=
  if containsSub (pyStrip (firstSplit lastLine "=")) ":" then
    pyStrip (lastSplit (pyStrip (firstSplit lastLine "=")) ":")
  else pyStrip (firstSplit lastLine "=")

/-- The branch structure of the smart capture on the (stripped) last
non-blank code line: an assignment not opening with a statement keyword,
or a bare trailing identifier. -/
def smartCaptureLine (env : SandboxEnv) (lastLine : String) : String × List String :=
  if containsSub lastLine "=" &&
      !(assignKeywords.any (fun p => pyStartsWith lastLine p)) then
    smartCaptureName env (assignTarget lastLine) true
  else if pyIsIdentifier lastLine then
    smartCaptureName env lastLine false
  else ("", [])

/-- Smart output capture (rlm_service.py lines 176-196): when a code block
produced no stdout and no stderr, resolve the last assignment target or a
bare trailing identifier; returns the synthetic output (empty when nothing
could be resolved) and the probed names. -/
def smartCaptureBlock (env : SandboxEnv) (cb : CodeBlockRes) : String × List String :=
  match ((pySplit (pyStrip cb.code) "\n").filter (fun l => pyStrip l ≠ "")).getLast? with
  | none => ("", [])
  | some ll => smartCaptureLine env (pyStrip ll)

/-- The styled stdout and probes of one block: replaced stdout when
present, else (with no stderr) the smart capture's synthetic output. -/
def renderBlockCapture (env : SandboxEnv) (cb : CodeBlockRes) : String × List String :=
  if (if cb.stdout ≠ "" then pyReplace cb.stdout "\n" "\n> " else "") = "" &&
      cb.stderr = "" then
    smartCaptureBlock env cb
  else ((if cb.stdout ≠ "" then pyReplace cb.stdout "\n" "\n> " else ""), [])

/-- Rendering of one code block inside the update event (rlm_service.py
lines 171-201): blocks with blank code are skipped; missing output becomes
`[No Output]`. -/
def renderBlock (env : SandboxEnv) (cb : CodeBlockRes) : String × List String :=
  if pyStrip cb.code ≠ "" then
    ("\n> **REPL Code:**\n> ```python\n> " ++ pyReplace cb.code "\n" "\n> " ++
      "\n> ```\n" ++ "> **Result:**\n> ```\n> " ++
      (if (renderBlockCapture env cb).1 = "" then "[No Output]"
       else (renderBlockCapture env cb).1) ++ "\n> ```\n",
      (renderBlockCapture env cb).2)
  else ("", [])

/-- Accumulating step of the per-block rendering fold. -/
def renderFold (env : SandboxEnv) (acc : String × List String) (cb : CodeBlockRes) :
    String × List String :=
  (acc.1 ++ (renderBlock env cb).1, acc.2 ++ (renderBlock env cb).2)

/-- The full update event content (rlm_service.py lines 145-203): styled
reasoning with FINAL substitution, then each code block's rendering. -/
def renderUpdate (env : SandboxEnv) (it : IterResult) : String × List String :=
  let sub := applyFinalSub env (pyReplace it.response "\n" "\n> ")
  it.code_blocks.foldl (renderFold env)
    ("\n> **Reasoning:**\n> " ++ sub.1 ++ "\n", sub.2)

/-- `environment.get_context_count()` with the source's default 1. -/
def ctxCountAt (env : SandboxEnv) (i : Nat) : Nat :=
  match env.getContextCount with
  | some f => f i
  | none => 1

/-- `environment.get_history_count()` with the source's default 0. -/
def histCountAt (env : SandboxEnv) (i : Nat) : Nat :=
  match env.getHistoryCount with
  | some f => f i
  | none => 0

/-- The iteration-start event (rlm_service.py lines 122-131). -/
def statusEventAt (showThinking : Bool) (i : Nat) : Event :=
  if showThinking then
    ⟨EventType.status, "\n\n---\n#### 🧠 Iteration " ++ toString (i + 1) ++ " Thinking\n"⟩
  else
    ⟨EventType.brief_status, "Iteration " ++ toString (i + 1) ++ "..."⟩

/-- The worker's cancellation error payload. -/
def cancelMsg (timeoutMs : Nat) : String :=
  "RLM execution cancelled (timeout: " ++ toString timeoutMs ++ "ms)"

/-- The worker's own timeout error payload. -/
def workerTimeoutMsg (timeoutMs : Nat) : String :=
  "RLM timeout after " ++ toString timeoutMs ++ "ms"

/-- Per-request configuration and abstract backend of one worker run. -/
structure WorkerCfg where
  /-- `rlm_inst.max_iterations`. -/
  maxIterations : Nat
  /-- `Settings.RLM_TIMEOUT`, in ms. -/
  rlmTimeoutMs : Nat
  /-- verbose mode. -/
  showThinking : Bool
  /-- the sandbox environment. -/
  env : SandboxEnv
  /-- `rlm_inst._setup_prompt(rlm_query)`. -/
  initialHistory : List String
  /-- `build_user_prompt(None, i, context_count, history_count)`. -/
  buildUserPrompt : Nat → Nat → Nat → String
  /-- `rlm_inst._completion_turn`; an exception is `Except.error`. -/
  completionTurn : List String → Except String IterResult
  /-- `format_iteration(iteration)`. -/
  formatIteration : IterResult → List String
  /-- whether `cancellation_requested` is observed set at iteration `i`. -/
  cancelledAt : Nat → Bool
  /-- elapsed ms observed at the iteration-`i` timeout check. -/
  elapsedAt : Nat → Nat

/-- The worker loop over the remaining iteration budget: emitted events
and probed identifier names. -/
def rlmWorkerAux (cfg : WorkerCfg) : Nat → Nat → List String → List Event × List String
  | 0, _, _ => ([], [])
  | fuel + 1, i, hist =>
    if cfg.cancelledAt i then
      ([⟨EventType.error, cancelMsg cfg.rlmTimeoutMs⟩], [])
    else if cfg.rlmTimeoutMs < cfg.elapsedAt i then
      ([⟨EventType.error, workerTimeoutMsg cfg.rlmTimeoutMs⟩], [])
    else
      let statusEv := statusEventAt cfg.showThinking i
      match cfg.completionTurn
          (hist ++ [cfg.buildUserPrompt i (ctxCountAt cfg.env i) (histCountAt cfg.env i)]) with
      | Except.error e =>
        ([statusEv, ⟨EventType.error, "RLM Worker Error: " ++ e⟩], [])
      | Except.ok it =>
        let upd := renderUpdate cfg.env it
        match fallback_final_answer it.marker it.response (execution_outputs it.code_blocks) with
        | some fa =>
          ([statusEv, ⟨EventType.update, upd.1⟩,
            ⟨EventType.final, (resolve_val cfg.env fa).1⟩],
           upd.2 ++ (resolve_val cfg.env fa).2)
        | none =>
          let nxt := rlmWorkerAux cfg fuel (i + 1) (hist ++ cfg.formatIteration it)
          (statusEv :: ⟨EventType.update, upd.1⟩ :: nxt.1, upd.2 ++ nxt.2)

/-- One full worker run. -/
def rlm_worker_run (cfg : WorkerCfg) : List Event × List String :=
  rlmWorkerAux cfg cfg.maxIterations 0 cfg.initialHistory

/-- The events a worker run pushes onto the queue, in order. -/
def rlm_worker_events (cfg : WorkerCfg) : List Event := (rlm_worker_run cfg).1

/-- The identifier names a worker run hands to the sandbox probe. -/
def rlm_worker_probes (cfg : WorkerCfg) : List String := (rlm_worker_run cfg).2

/-! ## Claim C3: exhausting the iteration budget -/

theorem isErrorEvent_statusEventAt (b : Bool) (i : Nat) :
    isErrorEvent (statusEventAt b i) = false := by
  cases b <;> rfl

theorem isFinalEvent_statusEventAt (b : Bool) (i : Nat) :
    isFinalEvent (statusEventAt b i) = false := by
  cases b <;> rfl

theorem isStatusEvent_statusEventAt (b : Bool) (i : Nat) :
    isStatusEvent (statusEventAt b i) = true := by
  cases b <;> rfl

theorem isErrorEvent_update (s : String) :
    isErrorEvent ⟨EventType.update, s⟩ = false := rfl

theorem isFinalEvent_update (s : String) :
    isFinalEvent ⟨EventType.update, s⟩ = false := rfl

theorem isStatusEvent_update (s : String) :
    isStatusEvent ⟨EventType.update, s⟩ = false := rfl

/-- A backend response with no final-answer marker and no completion
phrase. -/
def itNoAnswer : IterResult := ⟨"I do not know yet", [], none⟩

/-- A one-iteration worker run whose single response never yields a final
answer: the concrete input for the C3 counterexample. -/
def cfgC3 : WorkerCfg :=
  { maxIterations := 1
  , rlmTimeoutMs := 60000
  , showThinking := false
  , env := envBare
  , initialHistory := []
  , buildUserPrompt := fun _ _ _ => "continue"
  , completionTurn := fun _ => Except.ok itNoAnswer
  , formatIteration := fun _ => []
  , cancelledAt := fun _ => false
  , elapsedAt := fun _ => 0 }

/-- Counterexample to claim C3 as stated: a run that exhausts its whole
iteration budget without a final answer pushes only the brief-status and
update events — no error event stating the budget was exhausted (and no
final event); the loop in rlm_service.py lines 96-233 simply falls off the
end of `range(max_iterations)` into the `finally` clause. -/
theorem c3_counterexample :
    (rlm_worker_events cfgC3).filter isErrorEvent = [] ∧
    (rlm_worker_events cfgC3).filter isFinalEvent = [] ∧
    (rlm_worker_events cfgC3).length = 2 := by decide

theorem rlmWorkerAux_budget_exhausted (cfg : WorkerCfg)
    (hc : ∀ i, cfg.cancelledAt i = false)
    (ht : ∀ i, ¬ cfg.rlmTimeoutMs < cfg.elapsedAt i)
    (hturn : ∀ msgs, ∃ it, cfg.completionTurn msgs = Except.ok it ∧
      it.marker = none ∧ hasCompletionPhrase it.response = false) :
    ∀ fuel i hist,
      (rlmWorkerAux cfg fuel i hist).1.filter isErrorEvent = [] ∧
      (rlmWorkerAux cfg fuel i hist).1.filter isFinalEvent = [] ∧
      ((rlmWorkerAux cfg fuel i hist).1.filter isStatusEvent).length = fuel := by
  intro fuel
  induction fuel with
  | zero => intro i hist; simp [rlmWorkerAux]
  | succ n ih =>
    intro i hist
    obtain ⟨it, hok, hmk, hph⟩ :=
      hturn (hist ++ [cfg.buildUserPrompt i (ctxCountAt cfg.env i) (histCountAt cfg.env i)])
    have hfb : fallback_final_answer it.marker it.response
        (execution_outputs it.code_blocks) = none := by
      rw [hmk]
      unfold fallback_final_answer
      rw [if_neg (by simp [hph])]
    obtain ⟨ih1, ih2, ih3⟩ := ih (i + 1) (hist ++ cfg.formatIteration it)
    unfold rlmWorkerAux
    simp only [hc i, Bool.false_eq_true, if_false]
    rw [if_neg (ht i)]
    simp only [hok, hfb]
    refine ⟨?_, ?_, ?_⟩
    · simp [List.filter_cons, isErrorEvent_statusEventAt, isErrorEvent_update, ih1]
    · simp [List.filter_cons, isFinalEvent_statusEventAt, isFinalEvent_update, ih2]
    · simp [List.filter_cons, isStatusEvent_statusEventAt, isStatusEvent_update, ih3]

/-- Claim C3 as amended: when every backend turn yields neither an explicit
final-answer marker nor qualifying fallback text and neither cancellation
nor the worker-side timeout fires, the worker runs all `max_iterations`
passes (one status event per pass) and then emits nothing further: the
stream ends with neither an error frame nor a final frame — the source has
no budget-exhausted error event. -/
theorem c3_amended_budget_exhausted_silent (cfg : WorkerCfg)
    (hc : ∀ i, cfg.cancelledAt i = false)
    (ht : ∀ i, ¬ cfg.rlmTimeoutMs < cfg.elapsedAt i)
    (hturn : ∀ msgs, ∃ it, cfg.completionTurn msgs = Except.ok it ∧
      it.marker = none ∧ hasCompletionPhrase it.response = false) :
    (rlm_worker_events cfg).filter isErrorEvent = [] ∧
    (rlm_worker_events cfg).filter isFinalEvent = [] ∧
    ((rlm_worker_events cfg).filter isStatusEvent).length = cfg.maxIterations :=
  rlmWorkerAux_budget_exhausted cfg hc ht hturn cfg.maxIterations 0 cfg.initialHistory

/-- The C3 amended-claim witness configuration: two iterations, same
never-final backend. -/
def cfgC3W : WorkerCfg := { cfgC3 with maxIterations := 2 }

/-- Witness for the amended C3: a two-iteration budget is exhausted with
two status events and no error or final event. -/
theorem c3_amended_budget_exhausted_silent_witness :
    (rlm_worker_events cfgC3W).filter isErrorEvent = [] ∧
    (rlm_worker_events cfgC3W).filter isFinalEvent = [] ∧
    ((rlm_worker_events cfgC3W).filter isStatusEvent).length = cfgC3W.maxIterations :=
  c3_amended_budget_exhausted_silent cfgC3W (fun _ => rfl)
    (fun _ => show ¬ (60000 : Nat) < 0 by decide)
    (fun _ => ⟨itNoAnswer, rfl, rfl, by decide⟩)

/-! ## Claim C9: only bare identifiers reach the sandbox probe -/

theorem resolve_core_probes (env : SandboxEnv) (v : String) :
    (resolve_core env v).2 = [] ∨
      ((resolve_core env v).2 = [v] ∧ pyIsIdentifier v = true) := by
  unfold resolve_core
  by_cases h : pyIsIdentifier v = true
  · simp only [h, if_true]
    cases henv : env.locals with
    | none =>
      simp only [henv]
      by_cases he : env.hasExec = true
      · simp only [he, if_true]
        by_cases hr : ((env.execRun ("print(" ++ v ++ ")")).2 == "") = true
        · simp only [hr, if_true]
          simp
        · simp only [hr, Bool.false_eq_true, if_false]
          simp
      · simp only [he, Bool.false_eq_true, if_false]
        exact Or.inl (by trivial)
    | some l =>
      simp only [henv]
      cases hl : lookupLocal l v with
      | some x => simp only [hl]; exact Or.inl (by trivial)
      | none =>
        simp only [hl]
        by_cases he : env.hasExec = true
        · simp only [he, if_true]
          by_cases hr : ((env.execRun ("print(" ++ v ++ ")")).2 == "") = true
          · simp only [hr, if_true]
            simp
          · simp only [hr, Bool.false_eq_true, if_false]
            simp
        · simp only [he, Bool.false_eq_true, if_false]
          exact Or.inl (by trivial)
  · simp [h]

theorem resolve_val_probe_mem (env : SandboxEnv) (s p : String)
    (hp : p ∈ (resolve_val env s).2) : pyIsIdentifier p = true := by
  rcases resolve_core_probes env (stripNormalize s) with h | ⟨h, hid⟩ <;>
    rw [resolve_val, h] at hp
  · simp at hp
  · simp only [List.mem_singleton] at hp
    exact hp ▸ hid

theorem scanFinalAux_probes (env : SandboxEnv) :
    ∀ fuel l p, p ∈ (scanFinalAux env fuel l).2 → pyIsIdentifier p = true := by
  intro fuel
  induction fuel with
  | zero => intro l p hp; simp [scanFinalAux] at hp
  | succ n ih =>
    intro l p hp
    cases l with
    | nil => simp [scanFinalAux] at hp
    | cons c cs =>
      unfold scanFinalAux at hp
      by_cases h1 : charsMatch finalVarPat (c :: cs) = true
      · simp only [h1, if_true] at hp
        cases htc : takeUntilClose ((c :: cs).drop finalVarPat.length) with
        | some pr =>
          rw [htc] at hp
          simp only [List.mem_append] at hp
          rcases hp with hp | hp
          · exact resolve_val_probe_mem env _ p hp
          · exact ih pr.2 p hp
        | none =>
          rw [htc] at hp
          exact ih cs p hp
      · simp only [h1, Bool.false_eq_true, if_false] at hp
        by_cases h2 : charsMatch finalPat (c :: cs) = true
        · simp only [h2, if_true] at hp
          cases htc : takeUntilClose ((c :: cs).drop finalPat.length) with
          | some pr =>
            rw [htc] at hp
            simp only [List.mem_append] at hp
            rcases hp with hp | hp
            · exact resolve_val_probe_mem env _ p hp
            · exact ih pr.2 p hp
          | none =>
            rw [htc] at hp
            exact ih cs p hp
        · simp only [h2, Bool.false_eq_true, if_false] at hp
          exact ih cs p hp

theorem smartCaptureName_probe_mem (env : SandboxEnv) (v : String) (b : Bool) (p : String)
    (hp : p ∈ (smartCaptureName env v b).2) : pyIsIdentifier p = true := by
  unfold smartCaptureName at hp
  split at hp
  · split at hp <;> exact resolve_val_probe_mem env _ p hp
  · simp at hp

theorem smartCaptureLine_probe_mem (env : SandboxEnv) (ll : String) (p : String)
    (hp : p ∈ (smartCaptureLine env ll).2) : pyIsIdentifier p = true := by
  unfold smartCaptureLine at hp
  split at hp
  · exact smartCaptureName_probe_mem env _ _ p hp
  · split at hp
    · exact smartCaptureName_probe_mem env _ _ p hp
    · simp at hp

theorem smartCaptureBlock_probe_mem (env : SandboxEnv) (cb : CodeBlockRes) (p : String)
    (hp : p ∈ (smartCaptureBlock env cb).2) : pyIsIdentifier p = true := by
  unfold smartCaptureBlock at hp
  split at hp
  · simp at hp
  · exact smartCaptureLine_probe_mem env _ p hp

theorem renderBlockCapture_probe_mem (env : SandboxEnv) (cb : CodeBlockRes) (p : String)
    (hp : p ∈ (renderBlockCapture env cb).2) : pyIsIdentifier p = true := by
  unfold renderBlockCapture at hp
  split at hp <;> split at hp <;>
    first
    | exact smartCaptureBlock_probe_mem env cb p hp
    | simp at hp

theorem renderBlock_probe_mem (env : SandboxEnv) (cb : CodeBlockRes) (p : String)
    (hp : p ∈ (renderBlock env cb).2) : pyIsIdentifier p = true := by
  unfold renderBlock at hp
  split at hp
  · exact renderBlockCapture_probe_mem env cb p hp
  · simp at hp

theorem renderFoldl_probe_mem (env : SandboxEnv) (blocks : List CodeBlockRes) :
    ∀ acc : String × List String,
      (∀ q ∈ acc.2, pyIsIdentifier q = true) →
      ∀ p ∈ (blocks.foldl (renderFold env) acc).2, pyIsIdentifier p = true := by
  induction blocks with
  | nil => intro acc hacc p hp; exact hacc p hp
  | cons cb rest ih =>
    intro acc hacc p hp
    refine ih (renderFold env acc cb) ?_ p hp
    intro q hq
    simp only [renderFold, List.mem_append] at hq
    rcases hq with hq | hq
    · exact hacc q hq
    · exact renderBlock_probe_mem env cb q hq

theorem renderUpdate_probe_mem (env : SandboxEnv) (it : IterResult) (p : String)
    (hp : p ∈ (renderUpdate env it).2) : pyIsIdentifier p = true := by
  unfold renderUpdate at hp
  refine renderFoldl_probe_mem env it.code_blocks _ ?_ p hp
  intro q hq
  simp only [applyFinalSub] at hq
  exact scanFinalAux_probes env _ _ q hq

theorem rlmWorkerAux_probes (cfg : WorkerCfg) :
    ∀ fuel i hist p, p ∈ (rlmWorkerAux cfg fuel i hist).2 → pyIsIdentifier p = true := by
  intro fuel
  induction fuel with
  | zero => intro i hist p hp; simp [rlmWorkerAux] at hp
  | succ n ih =>
    intro i hist p hp
    unfold rlmWorkerAux at hp
    split at hp
    · simp at hp
    · split at hp
      · simp at hp
      · split at hp
        · simp at hp
        · split at hp
          · simp only [List.mem_append] at hp
            rcases hp with hp | hp
            · exact renderUpdate_probe_mem cfg.env _ p hp
            · exact resolve_val_probe_mem cfg.env _ p hp
          · simp only [List.mem_append] at hp
            rcases hp with hp | hp
            · exact renderUpdate_probe_mem cfg.env _ p hp
            · exact ih (i + 1) _ p hp

/-- Claim C9 (confirmed): every identifier name a worker run hands to the
sandbox probe (`execute_code` of a `print(<name>)` expression) — during
the FINAL substitution, the smart output capture, and the final-answer
cleanup — satisfies the identifier check, and a candidate that fails the
check is never probed and is returned unchanged (after the quote strip
that precedes resolution). -/
theorem c9_probe_safety (cfg : WorkerCfg) :
    (∀ p ∈ rlm_worker_probes cfg, pyIsIdentifier p = true) ∧
    (∀ env s, pyIsIdentifier (stripNormalize s) = false →
      resolve_val env s = (stripNormalize s, [])) := by
  constructor
  · intro p hp
    exact rlmWorkerAux_probes cfg cfg.maxIterations 0 cfg.initialHistory p hp
  · intro env s h
    rw [resolve_val]
    unfold resolve_core
    rw [if_neg (by simp [h])]

/-- A sandbox that answers every probe with stdout `5`. -/
def envProbe : SandboxEnv := ⟨none, true, fun _ => ("5\n", ""), none, none⟩

/-- A backend response whose reasoning carries a `FINAL(x)` occurrence,
forcing one probe of the identifier `x`. -/
def itFinalVar : IterResult := ⟨"The value is FINAL(x) ok", [], none⟩

/-- The C9 witness run: one iteration probing exactly the identifier `x`. -/
def cfgC9 : WorkerCfg :=
  { cfgC3 with env := envProbe, completionTurn := fun _ => Except.ok itFinalVar }

/-- Witness for C9: the concrete run `cfgC9` probes the name `x`, which the
theorem certifies as an identifier; and the non-identifier `42` is returned
unchanged with no probe. -/
theorem c9_probe_safety_witness :
    pyIsIdentifier "x" = true ∧ resolve_val envBare "42" = (stripNormalize "42", []) :=
  ⟨(c9_probe_safety cfgC9).1 "x" (by decide),
   (c9_probe_safety cfgC9).2 envBare "42" (by decide)⟩
